import Mathlib

/-!
Shallow embedding of the Financial-AI-Agent repository (src/ai-3.py and
src/ai-4.py): the endpoint client `retrieve_from_endpoint`, the volume
aggregator `aggregate_volumes`, the trading-day resolver
`get_next_available_date` (ai-4), and the table formatters of the
`get_top_companies_by_tx_volume` tools, together with proofs about them.

Modelling conventions:
  * Python dicts preserve insertion order, so they are modelled as
    association lists; `dict.values()` iterates in that order.
  * The provider JSON payload is modelled post-parse: `retrieve_from_endpoint`
    returns the decoded mapping from date keys to transaction records (the
    Python code serialises with json.dumps and the aggregator immediately
    re-parses with json.loads; that round trip is the identity and is elided).
  * Python exceptions are modelled by the `PyExc` type.  The constructors
    `upstreamHTTPError`, `transportError`, `invalidArgument` and
    `noTradingDataError` name the error taxonomy of the specification; the
    embedded code never produces them, because no such classes exist in the
    source.  `PyExc.catchableByExceptException` records whether a raised
    value is caught by a Python `except Exception` handler: SystemExit
    derives from BaseException, not Exception, so it is not.
  * Calendar dates are modelled structurally by `YMD`; the source's
    strptime/strftime round trip through the canonical YYYY-MM-DD string
    is the identity on well-formed dates and is elided, while
    datetime.timedelta(days=1) is modelled by Gregorian `succYMD`.
  * The network is modelled by a transport oracle mapping a request URL and
    an attempt index to an outcome, so transient failures are expressible.
-/

/-- One transaction record of the provider payload:
`{company_name, symbol, volume}` grouped under a date key. -/
structure TransactionRecord where
  company_name : String
  symbol : String
  volume : Int
deriving DecidableEq, Repr

/-- The decoded provider payload: a mapping (insertion-ordered Python dict)
from date keys to the list of transaction records of that date. -/
abbrev RawData := List (String × List TransactionRecord)

/-- An aggregated per-company entry `{'symbol': ..., 'total_volume': ...}`. -/
structure AggEntry where
  symbol : String
  total_volume : Int
deriving DecidableEq, Repr

/-- Python exceptions that can cross the boundaries of the embedded
functions.  The first four are what the source actually raises or lets
propagate; the last four name the specification's error taxonomy and are
never produced by the embedded code. -/
inductive PyExc where
  | systemExit (status : Nat)
  | requestException
  | jsonDecodeError
  | valueError
  | upstreamHTTPError (status : Nat)
  | transportError
  | invalidArgument
  | noTradingDataError (original finalCand : String)
deriving DecidableEq, Repr

/-- Whether a raised value is caught by Python's `except Exception`:
`SystemExit` derives from `BaseException`, not `Exception`, so it is not
caught; the rest are ordinary `Exception` subclasses. -/
def PyExc.catchableByExceptException : PyExc → Bool
  | .systemExit _ => false
  | _ => true

/-- Body of an HTTP response as seen by `response.json()`: either a decodable
payload or text whose decoding raises `json.JSONDecodeError`. -/
inductive RespBody where
  | payload (d : RawData)
  | malformed
deriving DecidableEq

/-- Outcome of one `requests.get` call: either a response with a status code
and a body, or a network-level failure raising a requests exception
(timeout, DNS failure, connection reset). -/
inductive NetOutcome where
  | response (status : Nat) (body : RespBody)
  | netFailure
deriving DecidableEq

/-- Embedding of `retrieve_from_endpoint` (identical in ai-3.py and ai-4.py)
applied to the outcome of its single `requests.get` call:
  * a network-level failure propagates the requests exception unchanged
    (only `requests.exceptions.HTTPError` is caught);
  * `response.raise_for_status()` raises `HTTPError` exactly when
    `400 ≤ status < 600`, and the handler re-raises it as `SystemExit(err)`;
  * otherwise `response.json()` either decodes the payload (returned through
    `json.dumps`) or raises a JSON decoding error that propagates. -/
def retrieve_from_endpoint (outcome : NetOutcome) : Except PyExc RawData :=
  match outcome with
  | .netFailure => .error .requestException
  | .response status body =>
    if 400 ≤ status ∧ status < 600 then
      .error (.systemExit status)
    else
      match body with
      | .malformed => .error .jsonDecodeError
      | .payload d => .ok d

/-- The flattened record stream the aggregator iterates over:
`for companies in data_dict.values(): for company in companies:`. -/
def allRecords (raw : RawData) : List TransactionRecord :=
  raw.flatMap (fun p => p.2)

/-- One aggregation step on the insertion-ordered `company_volumes` dict:
if `name` is absent, `company_volumes[name] = {'symbol': symbol,
'total_volume': 0}` appends a fresh entry at the end; then
`company_volumes[name]['total_volume'] += volume` updates it in place. -/
def updateEntry (m : List (String × AggEntry)) (name symbol : String)
    (volume : Int) : List (String × AggEntry) :=
  match m with
  | [] => [(name, AggEntry.mk symbol (0 + volume))]
  | (n, e) :: rest =>
    if n = name then
      (n, AggEntry.mk e.symbol (e.total_volume + volume)) :: rest
    else
      (n, e) :: updateEntry rest name symbol volume

/-- The fully built `company_volumes` dict of `aggregate_volumes`, before
sorting and truncation. -/
def aggregateMap (raw : RawData) : List (String × AggEntry) :=
  (allRecords raw).foldl
    (fun m r => updateEntry m r.company_name r.symbol r.volume) []

/-- The comparison underlying
`sorted(company_volumes.items(), key=lambda item: item[1]['total_volume'], reverse=True)`:
descending on `total_volume`. -/
def volDescLE (a b : String × AggEntry) : Bool :=
  decide (b.2.total_volume ≤ a.2.total_volume)

/-- Python's `sorted(..., key=..., reverse=True)` is a stable sort;
it is modelled by stable `List.mergeSort` under the descending key order. -/
def pySortedByVolumeDesc (m : List (String × AggEntry)) :
    List (String × AggEntry) :=
  m.mergeSort volDescLE

/-- Embedding of `aggregate_volumes` (ai-3.py lines 66-83; the ai-4.py copy
closes over `top_n` instead of taking it as a parameter but is otherwise the
same code): build `company_volumes`, sort by `total_volume` descending
(stably), and truncate with `sorted_companies[:top_n]`.  `dict(...)` of the
truncated item list preserves its order and is the identity here. -/
def aggregate_volumes (raw : RawData) (top_n : Int) :
    List (String × AggEntry) :=
  (pySortedByVolumeDesc (aggregateMap raw)).take top_n.toNat

/-- A Gregorian calendar date, the structural model of the candidate date
strings handled by `datetime.strptime(..., "%Y-%m-%d")`. -/
structure YMD where
  year : Nat
  month : Nat
  day : Nat
deriving DecidableEq, Repr

/-- Gregorian leap-year rule, as implemented by Python's datetime. -/
def isLeapYear (y : Nat) : Bool :=
  y % 4 = 0 && (y % 100 ≠ 0 || y % 400 = 0)

/-- Number of days of a month in the Gregorian calendar. -/
def daysInMonth (y m : Nat) : Nat :=
  if m = 2 then (if isLeapYear y then 29 else 28)
  else if m = 4 ∨ m = 6 ∨ m = 9 ∨ m = 11 then 30
  else 31

/-- `datetime.strptime(d, "%Y-%m-%d") + timedelta(days=1)`, the resolver's
one-day advancement, on the structural date. -/
def succYMD (d : YMD) : YMD :=
  if d.day < daysInMonth d.year d.month then
    YMD.mk d.year d.month (d.day + 1)
  else if d.month < 12 then
    YMD.mk d.year (d.month + 1) 1
  else
    YMD.mk (d.year + 1) 1 1

/-- Left-pad a numeral with zeros, as `%Y`/`%m`/`%d` of strftime do. -/
def padZeros (width n : Nat) : String :=
  String.mk (List.replicate (width - (toString n).length) '0') ++ toString n

/-- `strftime("%Y-%m-%d")`: the canonical zero-padded date string. -/
def formatYMD (d : YMD) : String :=
  padZeros 4 d.year ++ "-" ++ padZeros 2 d.month ++ "-" ++ padZeros 2 d.day

/-- The URL built by both tools' fetch:
`https://api.sectors.app/v1/most-traded/?start={start_date}&end={end_date}&n_stock={top_n}`. -/
def mostTradedUrl (start_date end_date : String) (top_n : Int) : String :=
  "https://api.sectors.app/v1/most-traded/?start=" ++ start_date ++
    "&end=" ++ end_date ++ "&n_stock=" ++ toString top_n

/-- A transport oracle: the outcome of the k-th `requests.get` issued against
a given URL within one tool invocation. -/
def Transport := String → Nat → NetOutcome

/-- Embedding of ai-4.py's inner `fetch_data(date)` (lines 69-72).  Mirroring
the source, the `date` parameter is IGNORED: the URL is built from the
enclosing tool's `start_date` and `end_date` closure variables, so every
attempt requests the same URL.  `attempt` indexes the successive
`requests.get` calls of one tool invocation. -/
def fetch_data (transport : Transport) (tool_start tool_end : String)
    (top_n : Int) (attempt : Nat) (date : YMD) : Except PyExc RawData :=
  retrieve_from_endpoint
    (transport (mostTradedUrl tool_start tool_end top_n) attempt)

/-- Embedding of ai-4.py's `get_next_available_date` (lines 94-101), the
`while True` retry loop, indexed by fuel since the source loop is unbounded:
`none` means the loop is still running after `fuel` iterations.  On a
successful fetch the loop returns the current candidate together with
`aggregate_volumes(data)` (which closes over the tool's `top_n`); on a
raised value caught by `except Exception` it advances the candidate one day
and retries; a raised value that is not an `Exception` subclass
(`SystemExit`) escapes the loop. -/
def get_next_available_date (transport : Transport)
    (tool_start tool_end : String) (top_n : Int) :
    Nat → Nat → YMD → Option (Except PyExc (YMD × List (String × AggEntry)))
  | 0, _, _ => none
  | fuel + 1, attempt, candidate =>
    match fetch_data transport tool_start tool_end top_n attempt candidate with
    | .ok data =>
      some (.ok (candidate, aggregate_volumes data top_n))
    | .error e =>
      if e.catchableByExceptException then
        get_next_available_date transport tool_start tool_end top_n
          fuel (attempt + 1) (succYMD candidate)
      else
        some (.error e)

/-- Pad a string on the right with spaces to the given width, the semantics
of a Python format spec like `{x:<20}` (strings longer than the width are
left unchanged). -/
def padRight (s : String) (width : Nat) : String :=
  s ++ String.mk (List.replicate (width - s.length) ' ')

/-- One data row of either tool's table:
`f"{company:<20}{data['symbol']:<10}{data['total_volume']:<15}\n"`. -/
def formatRow (company : String) (e : AggEntry) : String :=
  padRight company 20 ++ padRight e.symbol 10 ++
    padRight (toString e.total_volume) 15 ++ "\n"

/-- The column-header row and the two dash rules shared by both tools. -/
def tableHeaderBlock : String :=
  "--------------------------------\n" ++
    padRight "Company Name" 20 ++ padRight "Symbol" 10 ++
    padRight "Total Volume" 15 ++ "\n" ++
    "--------------------------------\n"

/-- Embedding of ai-3.py's table rendering (lines 90-98): title line, rules,
column header, then one row per aggregated entry in order. -/
def formatTable3 (entries : List (String × AggEntry)) : String :=
  "Top Companies by Transaction Volume\n" ++ tableHeaderBlock ++
    String.join (entries.map (fun p => formatRow p.1 p.2))

/-- Embedding of ai-4.py's table rendering (lines 107-113): same layout but
the title line names the resolved valid date. -/
def formatTable4 (valid_date : YMD) (entries : List (String × AggEntry)) :
    String :=
  "Here is the top companies by transaction volume for " ++
    formatYMD valid_date ++ ":\n" ++ tableHeaderBlock ++
    String.join (entries.map (fun p => formatRow p.1 p.2))

/-- Embedding of ai-3.py's `get_top_companies_by_tx_volume` (lines 57-98):
build the most-traded URL, perform the single fetch, aggregate, format.
There is no validation of `top_n` anywhere in the function. -/
def get_top_companies_by_tx_volume_ai3 (transport : Transport)
    (start_date end_date : String) (top_n : Int) : Except PyExc String :=
  match retrieve_from_endpoint
      (transport (mostTradedUrl start_date end_date top_n) 0) with
  | .error e => .error e
  | .ok raw => .ok (formatTable3 (aggregate_volumes raw top_n))

/-- Embedding of ai-4.py's `get_top_companies_by_tx_volume` (lines 59-115):
run the resolver loop from the given start date (fuel-indexed, `none` when
the source loop would still be running), then render the ai-4 table for the
resolved date.  The start date is passed both as the string used in the URL
closure and as its structural parse used by the advancement loop. -/
def get_top_companies_by_tx_volume_ai4 (transport : Transport)
    (start_date end_date : String) (start_ymd : YMD) (top_n : Int)
    (fuel : Nat) : Option (Except PyExc String) :=
  match get_next_available_date transport start_date end_date top_n
      fuel 0 start_ymd with
  | none => none
  | some (.error e) => some (.error e)
  | some (.ok (valid_date, company_data)) =>
    some (.ok (formatTable4 valid_date company_data))

/-- Keys of the `company_volumes` dict, in insertion order. -/
def keysOf (m : List (String × AggEntry)) : List String :=
  m.map Prod.fst

/-- Sum of `total_volume` over all entries of a `company_volumes` dict. -/
def sumVolumes (m : List (String × AggEntry)) : Int :=
  (m.map (fun p => p.2.total_volume)).sum

/-- Sum of the `volume` fields of a list of transaction records. -/
def sumRecVolumes (rs : List TransactionRecord) : Int :=
  (rs.map (fun r => r.volume)).sum

/-- Python `company_volumes[n]` as a partial lookup: the first (and, keys
being distinct, only) entry with key `n`. -/
def lookupEntry (m : List (String × AggEntry)) (n : String) :
    Option AggEntry :=
  (m.find? (fun p => p.1 == n)).map (fun p => p.2)

/-- The aggregation step of `aggregate_volumes`, applied once per record. -/
def aggStep (m : List (String × AggEntry)) (r : TransactionRecord) :
    List (String × AggEntry) :=
  updateEntry m r.company_name r.symbol r.volume

theorem aggregateMap_eq_foldl (raw : RawData) :
    aggregateMap raw = (allRecords raw).foldl aggStep [] :=
  rfl

theorem sumVolumes_updateEntry (m : List (String × AggEntry))
    (name symbol : String) (volume : Int) :
    sumVolumes (updateEntry m name symbol volume) = sumVolumes m + volume := by
  induction m with
  | nil => simp [updateEntry, sumVolumes]
  | cons p rest ih =>
    obtain ⟨n, e⟩ := p
    by_cases h : n = name
    · simp [updateEntry, h, sumVolumes]
      ring
    · simp [updateEntry, h, sumVolumes] at ih ⊢
      omega

theorem keysOf_updateEntry (m : List (String × AggEntry))
    (name symbol : String) (volume : Int) :
    keysOf (updateEntry m name symbol volume) =
      if name ∈ keysOf m then keysOf m else keysOf m ++ [name] := by
  induction m with
  | nil => simp [updateEntry, keysOf]
  | cons p rest ih =>
    obtain ⟨n, e⟩ := p
    by_cases h : n = name
    · simp [updateEntry, h, keysOf]
    · simp only [updateEntry, if_neg h, keysOf, List.map_cons] at ih ⊢
      rw [ih]
      by_cases hmem : name ∈ List.map Prod.fst rest
      · simp [hmem, Ne.symm h]
      · simp [hmem, Ne.symm h]

theorem lookupEntry_updateEntry_same (m : List (String × AggEntry))
    (name symbol : String) (volume : Int) :
    lookupEntry (updateEntry m name symbol volume) name =
      some (match lookupEntry m name with
        | none => AggEntry.mk symbol (0 + volume)
        | some e => AggEntry.mk e.symbol (e.total_volume + volume)) := by
  induction m with
  | nil => simp [updateEntry, lookupEntry]
  | cons p rest ih =>
    obtain ⟨n, e⟩ := p
    by_cases h : n = name
    · simp [updateEntry, h, lookupEntry]
    · simpa [updateEntry, h, lookupEntry] using ih

theorem lookupEntry_updateEntry_ne (m : List (String × AggEntry))
    (name symbol n' : String) (volume : Int) (h : n' ≠ name) :
    lookupEntry (updateEntry m name symbol volume) n' = lookupEntry m n' := by
  induction m with
  | nil => simp [updateEntry, lookupEntry, Ne.symm h]
  | cons p rest ih =>
    obtain ⟨n, e⟩ := p
    by_cases hn : n = name
    · subst hn
      simp [updateEntry, lookupEntry, Ne.symm h]
    · by_cases hn' : n = n'
      · subst hn'
        simp [updateEntry, hn, lookupEntry]
      · simpa [updateEntry, hn, lookupEntry, hn'] using ih

theorem sumVolumes_foldl (rs : List TransactionRecord) :
    ∀ m : List (String × AggEntry),
    sumVolumes (rs.foldl aggStep m) = sumVolumes m + sumRecVolumes rs := by
  induction rs with
  | nil => intro m; simp [sumRecVolumes]
  | cons r rs ih =>
    intro m
    simp only [List.foldl_cons]
    rw [ih]
    simp [aggStep, sumVolumes_updateEntry, sumRecVolumes]
    ring

theorem mem_keys_foldl (rs : List TransactionRecord) :
    ∀ (m : List (String × AggEntry)) (n : String),
    n ∈ keysOf (rs.foldl aggStep m) ↔
      n ∈ keysOf m ∨ ∃ r ∈ rs, r.company_name = n := by
  induction rs with
  | nil => intro m n; simp
  | cons r rs ih =>
    intro m n
    simp only [List.foldl_cons]
    rw [ih]
    rw [aggStep, keysOf_updateEntry]
    by_cases hmem : r.company_name ∈ keysOf m
    · rw [if_pos hmem]
      constructor
      · rintro (h | ⟨x, hx, hxn⟩)
        · exact Or.inl h
        · exact Or.inr ⟨x, List.mem_cons_of_mem r hx, hxn⟩
      · rintro (h | ⟨x, hx, hxn⟩)
        · exact Or.inl h
        · rcases List.mem_cons.mp hx with rfl | hx
          · exact Or.inl (hxn ▸ hmem)
          · exact Or.inr ⟨x, hx, hxn⟩
    · rw [if_neg hmem]
      constructor
      · rintro (h | ⟨x, hx, hxn⟩)
        · rcases List.mem_append.mp h with h | h
          · exact Or.inl h
          · refine Or.inr ⟨r, List.mem_cons_self r rs, ?_⟩
            exact (List.mem_singleton.mp h).symm
        · exact Or.inr ⟨x, List.mem_cons_of_mem r hx, hxn⟩
      · rintro (h | ⟨x, hx, hxn⟩)
        · exact Or.inl (List.mem_append.mpr (Or.inl h))
        · rcases List.mem_cons.mp hx with rfl | hx
          · exact Or.inl (List.mem_append.mpr (Or.inr (by simp [hxn])))
          · exact Or.inr ⟨x, hx, hxn⟩

theorem nodup_keys_foldl (rs : List TransactionRecord) :
    ∀ m : List (String × AggEntry),
    (keysOf m).Nodup → (keysOf (rs.foldl aggStep m)).Nodup := by
  induction rs with
  | nil => intro m h; simpa using h
  | cons r rs ih =>
    intro m h
    simp only [List.foldl_cons]
    apply ih
    rw [aggStep, keysOf_updateEntry]
    by_cases hmem : r.company_name ∈ keysOf m
    · rwa [if_pos hmem]
    · rw [if_neg hmem]
      simpa [List.nodup_append] using ⟨h, hmem⟩

theorem lookupEntry_foldl (rs : List TransactionRecord) :
    ∀ (m : List (String × AggEntry)) (n : String),
    lookupEntry (rs.foldl aggStep m) n =
      match lookupEntry m n with
      | some e0 =>
        some (AggEntry.mk e0.symbol (e0.total_volume +
          sumRecVolumes (rs.filter (fun r => r.company_name == n))))
      | none =>
        match rs.find? (fun r => r.company_name == n) with
        | none => none
        | some r =>
          some (AggEntry.mk r.symbol (0 +
            sumRecVolumes (rs.filter (fun x => x.company_name == n)))) := by
  induction rs with
  | nil =>
    intro m n
    cases h : lookupEntry m n with
    | none => simp [h]
    | some e0 => simp [h, sumRecVolumes]
  | cons r rs ih =>
    intro m n
    simp only [List.foldl_cons]
    rw [ih]
    by_cases hn : r.company_name = n
    · subst hn
      have hfilter : (r :: rs).filter (fun x => x.company_name == r.company_name)
          = r :: rs.filter (fun x => x.company_name == r.company_name) := by
        simp [List.filter_cons]
      cases h : lookupEntry m r.company_name with
      | some e0 =>
        have hupd :=
          lookupEntry_updateEntry_same m r.company_name r.symbol r.volume
        rw [h] at hupd
        rw [aggStep, hupd, hfilter]
        simp [sumRecVolumes]
        ring
      | none =>
        have hfind : (r :: rs).find? (fun x => x.company_name == r.company_name)
            = some r := by
          simp [List.find?_cons]
        have hupd :=
          lookupEntry_updateEntry_same m r.company_name r.symbol r.volume
        rw [h] at hupd
        rw [aggStep, hupd, hfind, hfilter]
        simp [sumRecVolumes]
    · have hfilter : (r :: rs).filter (fun x => x.company_name == n) =
          rs.filter (fun x => x.company_name == n) := by
        simp [List.filter_cons, hn]
      have hfind : (r :: rs).find? (fun x => x.company_name == n) =
          rs.find? (fun x => x.company_name == n) := by
        simp [List.find?_cons, hn]
      rw [aggStep,
        lookupEntry_updateEntry_ne m r.company_name r.symbol n r.volume
          (fun hc => hn hc.symm),
        hfilter, hfind]

theorem mem_iff_lookupEntry (m : List (String × AggEntry))
    (hnd : (keysOf m).Nodup) (n : String) (e : AggEntry) :
    (n, e) ∈ m ↔ lookupEntry m n = some e := by
  induction m with
  | nil => simp [lookupEntry]
  | cons p rest ih =>
    obtain ⟨k, e'⟩ := p
    simp only [keysOf, List.map_cons, List.nodup_cons] at hnd
    by_cases hk : k = n
    · subst hk
      simp only [lookupEntry, List.find?_cons, beq_self_eq_true, List.mem_cons]
      constructor
      · rintro (h | h)
        · simp [Prod.ext_iff] at h
          simp [h]
        · exact absurd (List.mem_map_of_mem Prod.fst h) hnd.1
      · intro h
        simp at h
        simp [h]
    · simp only [lookupEntry, List.find?_cons, List.mem_cons]
      have hbeq : ((k, e').1 == n) = false := by
        simp [hk]
      rw [hbeq]
      constructor
      · rintro (h | h)
        · exact absurd (congrArg Prod.fst h).symm hk
        · exact (ih hnd.2).mp h
      · intro h
        exact Or.inr ((ih hnd.2).mpr h)

theorem nodup_keys_aggregateMap (raw : RawData) :
    (keysOf (aggregateMap raw)).Nodup := by
  rw [aggregateMap_eq_foldl]
  exact nodup_keys_foldl (allRecords raw) [] (by simp [keysOf])

theorem lookupEntry_aggregateMap (raw : RawData) (n : String) :
    lookupEntry (aggregateMap raw) n =
      match (allRecords raw).find? (fun r => r.company_name == n) with
      | none => none
      | some r =>
        some (AggEntry.mk r.symbol (0 +
          sumRecVolumes ((allRecords raw).filter
            (fun x => x.company_name == n)))) := by
  rw [aggregateMap_eq_foldl, lookupEntry_foldl]
  simp [lookupEntry]

theorem sumVolumes_aggregateMap (raw : RawData) :
    sumVolumes (aggregateMap raw) = sumRecVolumes (allRecords raw) := by
  rw [aggregateMap_eq_foldl, sumVolumes_foldl]
  simp [sumVolumes]

theorem sumVolumes_pySorted (m : List (String × AggEntry)) :
    sumVolumes (pySortedByVolumeDesc m) = sumVolumes m := by
  have hperm : List.Perm (pySortedByVolumeDesc m) m :=
    List.mergeSort_perm m volDescLE
  exact (hperm.map (fun p => p.2.total_volume)).sum_eq

/-- Claim C6: for any input mapping of dates to transaction records, the sum
of `total_volume` over all aggregated entries produced by the volume
aggregator before truncation equals the sum of all input `volume` fields
(no record is double-counted or dropped); the aggregated dict has one entry
per company name, and every entry's symbol is the symbol of the first input
record with that company name, while its total is the exact sum of the
volumes of the records sharing that name. -/
theorem aggregation_conserves_volume (raw : RawData) :
    sumVolumes (pySortedByVolumeDesc (aggregateMap raw)) =
      sumRecVolumes (allRecords raw)
    ∧ (keysOf (aggregateMap raw)).Nodup
    ∧ ∀ n e, (n, e) ∈ aggregateMap raw →
        ((allRecords raw).find? (fun r => r.company_name == n)).map
            (fun r => r.symbol) = some e.symbol
        ∧ e.total_volume =
            sumRecVolumes ((allRecords raw).filter
              (fun r => r.company_name == n)) := by
  refine ⟨?_, nodup_keys_aggregateMap raw, ?_⟩
  · rw [sumVolumes_pySorted, sumVolumes_aggregateMap]
  · intro n e hmem
    have hlook :=
      (mem_iff_lookupEntry (aggregateMap raw) (nodup_keys_aggregateMap raw)
        n e).mp hmem
    rw [lookupEntry_aggregateMap] at hlook
    cases hfind : (allRecords raw).find? (fun r => r.company_name == n) with
    | none => rw [hfind] at hlook; exact absurd hlook (by simp)
    | some r =>
      rw [hfind] at hlook
      simp only [Option.some.injEq] at hlook
      constructor
      · simp [← hlook]
      · rw [← hlook]
        simp

theorem aggregation_conserves_volume_witness :
    (("A", AggEntry.mk "AAA" 150) ∈
      aggregateMap [("2024-01-04", [TransactionRecord.mk "A" "AAA" 100]),
        ("2024-01-05", [TransactionRecord.mk "A" "AAA" 50])])
    ∧ ((allRecords [("2024-01-04", [TransactionRecord.mk "A" "AAA" 100]),
          ("2024-01-05", [TransactionRecord.mk "A" "AAA" 50])]).find?
            (fun r => r.company_name == "A")).map (fun r => r.symbol) =
        some (AggEntry.mk "AAA" 150).symbol
    ∧ (AggEntry.mk "AAA" 150).total_volume =
        sumRecVolumes ((allRecords
          [("2024-01-04", [TransactionRecord.mk "A" "AAA" 100]),
            ("2024-01-05", [TransactionRecord.mk "A" "AAA" 50])]).filter
          (fun r => r.company_name == "A")) := by
  refine ⟨by decide, ?_⟩
  exact (aggregation_conserves_volume _).2.2 "A" (AggEntry.mk "AAA" 150)
    (by decide)

/-- Claim C8: for every input with `top_n ≥ 1`, the length of the ranked
result returned by the volume aggregator equals the minimum of `top_n` and
the number of distinct company names in the input records. -/
theorem ranked_result_length (raw : RawData) (top_n : Int)
    (h : 1 ≤ top_n) :
    (aggregate_volumes raw top_n).length =
      min top_n.toNat
        (((allRecords raw).map (fun r => r.company_name)).toFinset.card) := by
  have hkeys : keysOf (aggregateMap raw) =
      (aggregateMap raw).map Prod.fst := rfl
  have hlen : (aggregateMap raw).length = (keysOf (aggregateMap raw)).length := by
    rw [hkeys, List.length_map]
  have hset : (keysOf (aggregateMap raw)).toFinset =
      ((allRecords raw).map (fun r => r.company_name)).toFinset := by
    apply Finset.ext
    intro a
    simp only [List.mem_toFinset]
    rw [aggregateMap_eq_foldl, mem_keys_foldl]
    simp [keysOf, List.mem_map, eq_comm]
  have hcard : (aggregateMap raw).length =
      ((allRecords raw).map (fun r => r.company_name)).toFinset.card := by
    rw [hlen, ← hset,
      List.toFinset_card_of_nodup (nodup_keys_aggregateMap raw)]
  rw [aggregate_volumes, List.length_take, pySortedByVolumeDesc,
    List.length_mergeSort, hcard]

theorem ranked_result_length_witness :
    (1:Int) ≤ 1 ∧
    (aggregate_volumes [("2024-01-04",
        [TransactionRecord.mk "A" "AAA" 300, TransactionRecord.mk "B" "BBB" 200,
          TransactionRecord.mk "C" "CCC" 100])] 1).length =
      min (1:Int).toNat
        (((allRecords [("2024-01-04",
            [TransactionRecord.mk "A" "AAA" 300,
              TransactionRecord.mk "B" "BBB" 200,
              TransactionRecord.mk "C" "CCC" 100])]).map
          (fun r => r.company_name)).toFinset.card) :=
  ⟨by decide, ranked_result_length _ 1 (by decide)⟩

theorem volDescLE_trans : ∀ a b c : String × AggEntry,
    volDescLE a b = true → volDescLE b c = true → volDescLE a c = true := by
  intro a b c
  simp only [volDescLE, decide_eq_true_eq]
  omega

theorem volDescLE_total : ∀ a b : String × AggEntry,
    (volDescLE a b || volDescLE b a) = true := by
  intro a b
  simp only [volDescLE, Bool.or_eq_true, decide_eq_true_eq]
  omega

theorem pySorted_eq_enum (m : List (String × AggEntry)) :
    pySortedByVolumeDesc m =
      ((m.enum).mergeSort (List.enumLE volDescLE)).map (fun x => x.2) :=
  List.mergeSort_enum.symm

theorem pySorted_stable (m : List (String × AggEntry))
    (i j : Nat) (hi : i < (pySortedByVolumeDesc m).length)
    (hj : j < (pySortedByVolumeDesc m).length) (hij : i < j)
    (hvol : ((pySortedByVolumeDesc m).get ⟨i, hi⟩).2.total_volume =
      ((pySortedByVolumeDesc m).get ⟨j, hj⟩).2.total_volume) :
    ∃ ki kj, ki < kj ∧ ∃ (hki : ki < m.length) (hkj : kj < m.length),
      m.get ⟨ki, hki⟩ = (pySortedByVolumeDesc m).get ⟨i, hi⟩ ∧
      m.get ⟨kj, hkj⟩ = (pySortedByVolumeDesc m).get ⟨j, hj⟩ := by
  have h1 := pySorted_eq_enum m
  have hlen : (pySortedByVolumeDesc m).length =
      ((m.enum).mergeSort (List.enumLE volDescLE)).length := by
    rw [h1, List.length_map]
  have hi' : i < ((m.enum).mergeSort (List.enumLE volDescLE)).length :=
    hlen ▸ hi
  have hj' : j < ((m.enum).mergeSort (List.enumLE volDescLE)).length :=
    hlen ▸ hj
  have hgi : (pySortedByVolumeDesc m).get ⟨i, hi⟩ =
      (((m.enum).mergeSort (List.enumLE volDescLE)).get ⟨i, hi'⟩).2 := by
    simp only [h1, List.get_eq_getElem, List.getElem_map]
  have hgj : (pySortedByVolumeDesc m).get ⟨j, hj⟩ =
      (((m.enum).mergeSort (List.enumLE volDescLE)).get ⟨j, hj'⟩).2 := by
    simp only [h1, List.get_eq_getElem, List.getElem_map]
  set t := (m.enum).mergeSort (List.enumLE volDescLE) with ht
  have hsorted : t.Pairwise (fun a b => List.enumLE volDescLE a b = true) :=
    List.sorted_mergeSort (List.enumLE_trans volDescLE_trans)
      (List.enumLE_total volDescLE_total) (m.enum)
  have hpair : List.enumLE volDescLE (t.get ⟨i, hi'⟩) (t.get ⟨j, hj'⟩) = true := by
    have := List.pairwise_iff_getElem.mp hsorted i j hi' hj' hij
    simpa [List.get_eq_getElem] using this
  have hvolE : (t.get ⟨i, hi'⟩).2.2.total_volume =
      (t.get ⟨j, hj'⟩).2.2.total_volume := by
    rw [hgi, hgj] at hvol
    exact hvol
  have hc1 : volDescLE (t.get ⟨i, hi'⟩).2 (t.get ⟨j, hj'⟩).2 = true := by
    simp only [volDescLE, decide_eq_true_eq]
    omega
  have hc2 : volDescLE (t.get ⟨j, hj'⟩).2 (t.get ⟨i, hi'⟩).2 = true := by
    simp only [volDescLE, decide_eq_true_eq]
    omega
  have hidx : (t.get ⟨i, hi'⟩).1 ≤ (t.get ⟨j, hj'⟩).1 := by
    rw [List.enumLE, if_pos hc1, if_pos hc2] at hpair
    exact of_decide_eq_true hpair
  have hnd_enum : (m.enum).Nodup :=
    List.Nodup.of_map Prod.fst (List.nodup_enum_map_fst m)
  have hnd_t : t.Nodup := (List.mergeSort_perm (m.enum) _).symm.nodup hnd_enum
  have hne : t.get ⟨i, hi'⟩ ≠ t.get ⟨j, hj'⟩ := by
    intro hcontra
    have : i = j := by
      have := (hnd_t.getElem_inj_iff).mp
        (by simpa [List.get_eq_getElem] using hcontra)
      exact this
    omega
  have hmem_i : t.get ⟨i, hi'⟩ ∈ m.enum := by
    have hm : t.get ⟨i, hi'⟩ ∈ t := List.get_mem t i hi'
    exact List.mem_mergeSort.mp hm
  have hmem_j : t.get ⟨j, hj'⟩ ∈ m.enum := by
    have hm : t.get ⟨j, hj'⟩ ∈ t := List.get_mem t j hj'
    exact List.mem_mergeSort.mp hm
  obtain ⟨hki, hmi⟩ :=
    List.getElem?_eq_some.mp (List.mem_enum_iff_getElem?.mp hmem_i)
  obtain ⟨hkj, hmj⟩ :=
    List.getElem?_eq_some.mp (List.mem_enum_iff_getElem?.mp hmem_j)
  have hlt : (t.get ⟨i, hi'⟩).1 < (t.get ⟨j, hj'⟩).1 := by
    rcases Nat.lt_or_ge (t.get ⟨i, hi'⟩).1 (t.get ⟨j, hj'⟩).1 with h | h
    · exact h
    · have heq : (t.get ⟨i, hi'⟩).1 = (t.get ⟨j, hj'⟩).1 := by omega
      exfalso
      apply hne
      have hsnd : (t.get ⟨i, hi'⟩).2 = (t.get ⟨j, hj'⟩).2 := by
        rw [← hmi, ← hmj]
        congr 1
      exact Prod.ext heq hsnd
  refine ⟨(t.get ⟨i, hi'⟩).1, (t.get ⟨j, hj'⟩).1, hlt, hki, hkj, ?_, ?_⟩
  · rw [hgi, List.get_eq_getElem, ← hmi]
  · rw [hgj, List.get_eq_getElem, ← hmj]

/-- Claim C7: in every ranked result produced by the volume aggregator,
adjacent entries have non-increasing `total_volume`, and entries with equal
`total_volume` appear in first-seen insertion order: any two tied entries of
the result occur in the insertion-ordered `company_volumes` dict at
positions in the same relative order (the sort is stable). -/
theorem ranking_sorted_and_stable (raw : RawData) (top_n : Int) :
    ((aggregate_volumes raw top_n).Pairwise
      (fun a b => b.2.total_volume ≤ a.2.total_volume))
    ∧ ∀ i j (hi : i < (aggregate_volumes raw top_n).length)
        (hj : j < (aggregate_volumes raw top_n).length), i < j →
        ((aggregate_volumes raw top_n).get ⟨i, hi⟩).2.total_volume =
          ((aggregate_volumes raw top_n).get ⟨j, hj⟩).2.total_volume →
        ∃ ki kj, ki < kj ∧
          ∃ (hki : ki < (aggregateMap raw).length)
            (hkj : kj < (aggregateMap raw).length),
            (aggregateMap raw).get ⟨ki, hki⟩ =
              (aggregate_volumes raw top_n).get ⟨i, hi⟩ ∧
            (aggregateMap raw).get ⟨kj, hkj⟩ =
              (aggregate_volumes raw top_n).get ⟨j, hj⟩ := by
  constructor
  · have hs : (pySortedByVolumeDesc (aggregateMap raw)).Pairwise
        (fun a b => volDescLE a b = true) :=
      List.sorted_mergeSort volDescLE_trans volDescLE_total (aggregateMap raw)
    have htake : (aggregate_volumes raw top_n).Pairwise
        (fun a b => volDescLE a b = true) :=
      List.Pairwise.sublist (List.take_sublist _ _) hs
    exact htake.imp (fun hab => by simpa [volDescLE] using hab)
  · intro i j hi hj hij hvol
    have hlenle : (aggregate_volumes raw top_n).length ≤
        (pySortedByVolumeDesc (aggregateMap raw)).length := by
      rw [aggregate_volumes, List.length_take]
      exact Nat.min_le_right _ _
    have hi' : i < (pySortedByVolumeDesc (aggregateMap raw)).length :=
      Nat.lt_of_lt_of_le hi hlenle
    have hj' : j < (pySortedByVolumeDesc (aggregateMap raw)).length :=
      Nat.lt_of_lt_of_le hj hlenle
    have hgi : (aggregate_volumes raw top_n).get ⟨i, hi⟩ =
        (pySortedByVolumeDesc (aggregateMap raw)).get ⟨i, hi'⟩ := by
      simp [aggregate_volumes, List.get_eq_getElem, List.getElem_take]
    have hgj : (aggregate_volumes raw top_n).get ⟨j, hj⟩ =
        (pySortedByVolumeDesc (aggregateMap raw)).get ⟨j, hj'⟩ := by
      simp [aggregate_volumes, List.get_eq_getElem, List.getElem_take]
    rw [hgi, hgj] at hvol ⊢
    exact pySorted_stable (aggregateMap raw) i j hi' hj' hij hvol

theorem ranking_sorted_and_stable_witness :
    ∃ (hi : 1 < (aggregate_volumes [("2024-01-04",
      [TransactionRecord.mk "A" "AAA" 100,
        TransactionRecord.mk "B" "BBB" 200,
        TransactionRecord.mk "C" "CCC" 100])] 5).length)
      (hj : 2 < (aggregate_volumes [("2024-01-04",
      [TransactionRecord.mk "A" "AAA" 100,
        TransactionRecord.mk "B" "BBB" 200,
        TransactionRecord.mk "C" "CCC" 100])] 5).length),
      ∃ ki kj, ki < kj ∧
        ∃ (hki : ki < (aggregateMap [("2024-01-04",
      [TransactionRecord.mk "A" "AAA" 100,
        TransactionRecord.mk "B" "BBB" 200,
        TransactionRecord.mk "C" "CCC" 100])]).length)
          (hkj : kj < (aggregateMap [("2024-01-04",
      [TransactionRecord.mk "A" "AAA" 100,
        TransactionRecord.mk "B" "BBB" 200,
        TransactionRecord.mk "C" "CCC" 100])]).length),
          (aggregateMap [("2024-01-04",
      [TransactionRecord.mk "A" "AAA" 100,
        TransactionRecord.mk "B" "BBB" 200,
        TransactionRecord.mk "C" "CCC" 100])]).get ⟨ki, hki⟩ =
            (aggregate_volumes [("2024-01-04",
      [TransactionRecord.mk "A" "AAA" 100,
        TransactionRecord.mk "B" "BBB" 200,
        TransactionRecord.mk "C" "CCC" 100])] 5).get ⟨1, hi⟩ ∧
          (aggregateMap [("2024-01-04",
      [TransactionRecord.mk "A" "AAA" 100,
        TransactionRecord.mk "B" "BBB" 200,
        TransactionRecord.mk "C" "CCC" 100])]).get ⟨kj, hkj⟩ =
            (aggregate_volumes [("2024-01-04",
      [TransactionRecord.mk "A" "AAA" 100,
        TransactionRecord.mk "B" "BBB" 200,
        TransactionRecord.mk "C" "CCC" 100])] 5).get ⟨2, hj⟩ := by
  have hmap : aggregateMap [("2024-01-04",
      [TransactionRecord.mk "A" "AAA" 100,
        TransactionRecord.mk "B" "BBB" 200,
        TransactionRecord.mk "C" "CCC" 100])] =
      [("A", AggEntry.mk "AAA" 100), ("B", AggEntry.mk "BBB" 200),
        ("C", AggEntry.mk "CCC" 100)] := by decide
  have hsort : pySortedByVolumeDesc (aggregateMap [("2024-01-04",
      [TransactionRecord.mk "A" "AAA" 100,
        TransactionRecord.mk "B" "BBB" 200,
        TransactionRecord.mk "C" "CCC" 100])]) =
      [("B", AggEntry.mk "BBB" 200), ("A", AggEntry.mk "AAA" 100),
        ("C", AggEntry.mk "CCC" 100)] := by
    rw [hmap]
    simp [pySortedByVolumeDesc, List.mergeSort, volDescLE]
  have hagg : aggregate_volumes [("2024-01-04",
      [TransactionRecord.mk "A" "AAA" 100,
        TransactionRecord.mk "B" "BBB" 200,
        TransactionRecord.mk "C" "CCC" 100])] 5 =
      [("B", AggEntry.mk "BBB" 200), ("A", AggEntry.mk "AAA" 100),
        ("C", AggEntry.mk "CCC" 100)] := by
    rw [aggregate_volumes, hsort]
    rfl
  have hi : 1 < (aggregate_volumes [("2024-01-04",
      [TransactionRecord.mk "A" "AAA" 100,
        TransactionRecord.mk "B" "BBB" 200,
        TransactionRecord.mk "C" "CCC" 100])] 5).length := by
    rw [hagg]
    decide
  have hj : 2 < (aggregate_volumes [("2024-01-04",
      [TransactionRecord.mk "A" "AAA" 100,
        TransactionRecord.mk "B" "BBB" 200,
        TransactionRecord.mk "C" "CCC" 100])] 5).length := by
    rw [hagg]
    decide
  refine ⟨hi, hj, ?_⟩
  exact (ranking_sorted_and_stable [("2024-01-04",
      [TransactionRecord.mk "A" "AAA" 100,
        TransactionRecord.mk "B" "BBB" 200,
        TransactionRecord.mk "C" "CCC" 100])] 5).2 1 2 hi hj (by decide)
    (by simp [hagg])

theorem retrieve_errors_limited (o : NetOutcome) (e : PyExc)
    (h : retrieve_from_endpoint o = .error e) :
    e = .requestException ∨ e = .jsonDecodeError ∨
      ∃ st, e = .systemExit st := by
  cases o with
  | netFailure =>
    simp only [retrieve_from_endpoint, Except.error.injEq] at h
    exact Or.inl h.symm
  | response status body =>
    by_cases hs : 400 ≤ status ∧ status < 600
    · simp only [retrieve_from_endpoint, if_pos hs, Except.error.injEq] at h
      exact Or.inr (Or.inr ⟨status, h.symm⟩)
    · cases body with
      | malformed =>
        simp only [retrieve_from_endpoint, if_neg hs, Except.error.injEq] at h
        exact Or.inr (Or.inl h.symm)
      | payload d =>
        simp only [retrieve_from_endpoint, if_neg hs] at h
        exact absurd h (by simp)

/-- Claim C1 (divergence from the code): with a transport on which every
request raises a network-level failure — so that every candidate date fails
with an exception caught by `except Exception` — the ai-4 resolver loop is
still running after ANY number of iterations: the source's `while True` has
no `max_lookahead_days` ceiling; and (second conjunct) no terminating run
of the loop, under any transport, can fail with the spec's
`NoTradingDataError`, since no such class exists in the code. -/
theorem resolver_unbounded_never_no_trading_data
    (tool_start tool_end : String) (top_n : Int) :
    (∀ (fuel attempt : Nat) (candidate : YMD),
      get_next_available_date (fun _ _ => NetOutcome.netFailure)
        tool_start tool_end top_n fuel attempt candidate = none)
    ∧ (∀ (transport : Transport) (fuel attempt : Nat) (candidate : YMD)
        (res : Except PyExc (YMD × List (String × AggEntry))),
        get_next_available_date transport tool_start tool_end top_n
          fuel attempt candidate = some res →
        ∀ d1 d2, res ≠ .error (.noTradingDataError d1 d2)) := by
  constructor
  · intro fuel
    induction fuel with
    | zero => intro attempt candidate; rfl
    | succ fuel ih =>
      intro attempt candidate
      simp only [get_next_available_date, fetch_data, retrieve_from_endpoint,
        PyExc.catchableByExceptException, if_true]
      exact ih (attempt + 1) (succYMD candidate)
  · intro transport fuel
    induction fuel with
    | zero =>
      intro attempt candidate res h
      exact absurd h (by simp [get_next_available_date])
    | succ fuel ih =>
      intro attempt candidate res h
      rw [get_next_available_date] at h
      cases hf : fetch_data transport tool_start tool_end top_n
          attempt candidate with
      | ok data =>
        rw [hf] at h
        simp only [Option.some.injEq] at h
        intro d1 d2
        rw [← h]
        simp
      | error e =>
        rw [hf] at h
        by_cases hc : e.catchableByExceptException = true
        · simp only [hc, if_true] at h
          exact ih (attempt + 1) (succYMD candidate) res h
        · simp only [if_neg hc, Option.some.injEq] at h
          intro d1 d2
          rw [← h]
          intro hcon
          simp only [Except.error.injEq] at hcon
          rcases retrieve_errors_limited _ e hf with h1 | h1 | ⟨st, h1⟩ <;>
            simp [h1] at hcon

theorem resolver_unbounded_never_no_trading_data_witness :
    (Except.ok (YMD.mk 2024 1 5, ([] : List (String × AggEntry))) :
        Except PyExc (YMD × List (String × AggEntry))) ≠
      Except.error (PyExc.noTradingDataError "2024-01-05" "2024-01-08") := by
  have hrun : get_next_available_date
      (fun _ _ => NetOutcome.response 200 (RespBody.payload []))
      "2024-01-05" "2024-01-06" 5 1 0 (YMD.mk 2024 1 5) =
      some (.ok (YMD.mk 2024 1 5, [])) := by
    simp [get_next_available_date, fetch_data, retrieve_from_endpoint,
      aggregate_volumes, aggregateMap, allRecords, pySortedByVolumeDesc]
  exact (resolver_unbounded_never_no_trading_data
      "2024-01-05" "2024-01-06" 5).2 _ 1 0 (YMD.mk 2024 1 5) _ hrun
    "2024-01-05" "2024-01-08"

/-- Claim C3 counterexample: with a transport whose single request returns
HTTP 200 with an empty payload — the fetch succeeds and the aggregation
over its records yields zero entries — the ai-4 resolver returns the empty
result at the ORIGINAL candidate date on the very first iteration, instead
of advancing the candidate date and retrying. -/
theorem resolver_returns_empty_aggregation :
    get_next_available_date
        (fun _ _ => NetOutcome.response 200 (RespBody.payload []))
        "2024-01-05" "2024-01-06" 5 1 0 (YMD.mk 2024 1 5) =
      some (.ok (YMD.mk 2024 1 5, [])) := by
  simp [get_next_available_date, fetch_data, retrieve_from_endpoint,
    aggregate_volumes, aggregateMap, allRecords, pySortedByVolumeDesc]

/-- Claim C3 amended: the resolver advances the candidate date only when
the fetch raises an exception caught by `except Exception`; whenever the
fetch succeeds — even when the aggregation over its records yields zero
entries — it immediately returns the current candidate date paired with
the (possibly empty) aggregation, passing the empty result to the caller
instead of advancing. -/
theorem resolver_returns_on_successful_fetch (transport : Transport)
    (tool_start tool_end : String) (top_n : Int)
    (fuel attempt : Nat) (candidate : YMD) (data : RawData)
    (h : retrieve_from_endpoint
        (transport (mostTradedUrl tool_start tool_end top_n) attempt) =
      .ok data) :
    get_next_available_date transport tool_start tool_end top_n
        (fuel + 1) attempt candidate =
      some (.ok (candidate, aggregate_volumes data top_n)) := by
  have hfd : fetch_data transport tool_start tool_end top_n attempt
      candidate = .ok data := h
  rw [get_next_available_date, hfd]

theorem resolver_returns_on_successful_fetch_witness :
    get_next_available_date
        (fun _ _ => NetOutcome.response 200
          (RespBody.payload [("2024-01-05", [])]))
        "2024-01-05" "2024-01-06" 5 1 0 (YMD.mk 2024 1 5) =
      some (.ok (YMD.mk 2024 1 5,
        aggregate_volumes [("2024-01-05", [])] 5)) :=
  resolver_returns_on_successful_fetch _ "2024-01-05" "2024-01-06" 5 0 0
    (YMD.mk 2024 1 5) [("2024-01-05", [])] (by rfl)

/-- A transport for the claim C2 scenario: the URL of the tool's original
window (start 2024-01-05) suffers a transient network failure on the first
attempt and then serves company "A"'s records, while the URL a fetch for
day 2 (start 2024-01-06) would use serves company "B"'s records. -/
def windowTransport : Transport := fun url k =>
  if url = mostTradedUrl "2024-01-05" "2024-01-06" 5 then
    (if k = 0 then NetOutcome.netFailure
     else NetOutcome.response 200 (RespBody.payload
       [("2024-01-05", [TransactionRecord.mk "A" "AAA" 100])]))
  else
    NetOutcome.response 200 (RespBody.payload
      [("2024-01-06", [TransactionRecord.mk "B" "BBB" 7])])

/-- Claim C2 (divergence from the code): ai-4's inner `fetch_data(date)`
ignores its `date` parameter (first conjunct, an identity of the embedding):
the URL of every attempt is built from the enclosing tool's original
`start_date` and `end_date`.  Hence in the scenario where the first fetch
fails and the second succeeds, the resolver does return day 2 as the
effective date, but paired with the aggregate of the data served for the
ORIGINAL window's URL (company "A"), not with the aggregate of the data a
fetch for day 2 would return (conjuncts two to four: the day-2 URL serves
company "B"'s records, whose aggregate differs). -/
theorem resolver_ignores_advanced_date :
    (∀ (transport : Transport) (ts te : String) (top_n : Int)
        (attempt : Nat) (d d' : YMD),
      fetch_data transport ts te top_n attempt d =
        fetch_data transport ts te top_n attempt d')
    ∧ retrieve_from_endpoint
        (windowTransport (mostTradedUrl "2024-01-06" "2024-01-06" 5) 1) =
      .ok [("2024-01-06", [TransactionRecord.mk "B" "BBB" 7])]
    ∧ get_next_available_date windowTransport "2024-01-05" "2024-01-06" 5
        2 0 (YMD.mk 2024 1 5) =
      some (.ok (YMD.mk 2024 1 6, [("A", AggEntry.mk "AAA" 100)]))
    ∧ aggregate_volumes
        [("2024-01-06", [TransactionRecord.mk "B" "BBB" 7])] 5 =
      [("B", AggEntry.mk "BBB" 7)] := by
  refine ⟨fun _ _ _ _ _ _ _ => rfl, ?_, ?_, ?_⟩
  · rw [windowTransport]
    simp only [if_neg (by decide :
      ¬ mostTradedUrl "2024-01-06" "2024-01-06" 5 =
        mostTradedUrl "2024-01-05" "2024-01-06" 5)]
    rfl
  · simp [get_next_available_date, fetch_data, retrieve_from_endpoint,
      windowTransport, succYMD, daysInMonth, isLeapYear,
      PyExc.catchableByExceptException,
      aggregate_volumes, aggregateMap, allRecords, pySortedByVolumeDesc,
      updateEntry]
  · simp [aggregate_volumes, aggregateMap, allRecords, updateEntry,
      pySortedByVolumeDesc]

/-- Claim C4 counterexample: calling ai-3's top-companies tool with
`top_n = 0` does not fail with `InvalidArgument` before the network call:
with a transport whose single request fails at the network level, the tool
surfaces that network failure — so the request WAS issued — and the error
is the propagated requests exception, not `InvalidArgument`. -/
theorem top_n_zero_not_validated :
    get_top_companies_by_tx_volume_ai3 (fun _ _ => NetOutcome.netFailure)
        "2024-01-01" "2024-01-02" 0 = .error .requestException
    ∧ (Except.error PyExc.requestException : Except PyExc String) ≠
        .error .invalidArgument := by
  exact ⟨rfl, by simp⟩

/-- Claim C4 amended: neither validation nor an `InvalidArgument` class
exists: for every `top_n` (in particular `top_n ≤ 0`) the ai-3 tool never
fails with `InvalidArgument` under any transport, and with `top_n = 0` it
proceeds to the network call and, when the fetch succeeds, returns the
formatted table containing the header and rules and zero data rows. -/
theorem top_n_zero_proceeds_to_fetch :
    (∀ (transport : String → Nat → NetOutcome) (s e : String) (top_n : Int),
      get_top_companies_by_tx_volume_ai3 transport s e top_n ≠
        .error .invalidArgument)
    ∧ (∀ (transport : String → Nat → NetOutcome) (s e : String)
        (raw : RawData),
        transport (mostTradedUrl s e 0) 0 = .response 200 (.payload raw) →
        get_top_companies_by_tx_volume_ai3 transport s e 0 =
          .ok (formatTable3 [])) := by
  constructor
  · intro transport s e top_n
    rw [get_top_companies_by_tx_volume_ai3]
    cases ho : retrieve_from_endpoint (transport (mostTradedUrl s e top_n) 0) with
    | ok raw => simp
    | error err =>
      simp only [ne_eq, Except.error.injEq]
      intro hcon
      rcases retrieve_errors_limited _ err ho with h1 | h1 | ⟨st, h1⟩ <;>
        simp [h1] at hcon
  · intro transport s e raw h
    rw [get_top_companies_by_tx_volume_ai3, h]
    have hagg : aggregate_volumes raw 0 = [] := by
      rw [aggregate_volumes]
      simp
    rw [retrieve_from_endpoint.eq_def]
    simp [hagg]

theorem top_n_zero_proceeds_to_fetch_witness :
    get_top_companies_by_tx_volume_ai3
        (fun _ _ => NetOutcome.response 200
          (RespBody.payload [("2024-01-01",
            [TransactionRecord.mk "A" "AAA" 100])]))
        "2024-01-01" "2024-01-02" 0 = .ok (formatTable3 []) :=
  top_n_zero_proceeds_to_fetch.2 _ "2024-01-01" "2024-01-02"
    [("2024-01-01", [TransactionRecord.mk "A" "AAA" 100])] rfl

/-- Claim C5 counterexample: on a 404 response the endpoint client fails
with `SystemExit` (wrapping the `HTTPError`), which is not the spec's
`UpstreamHTTPError`; on a network-level failure it propagates the requests
exception unchanged, which is not the spec's `TransportError`. -/
theorem non2xx_raises_system_exit :
    retrieve_from_endpoint (.response 404 (.payload [])) =
      .error (.systemExit 404)
    ∧ (Except.error (PyExc.systemExit 404) : Except PyExc RawData) ≠
        .error (.upstreamHTTPError 404)
    ∧ retrieve_from_endpoint .netFailure = .error .requestException
    ∧ (Except.error PyExc.requestException : Except PyExc RawData) ≠
        .error .transportError := by
  exact ⟨rfl, by simp, rfl, by simp⟩

/-- Claim C5 amended: the endpoint client issues exactly one request and
never retries; on an HTTP-error status (`400 ≤ status < 600`, the statuses
for which `raise_for_status` raises) it fails by raising `SystemExit`
wrapping the `HTTPError` — no `UpstreamHTTPError` class exists and none is
ever produced — and on a network-level failure (timeout, DNS, connection
reset) the underlying requests exception propagates unchanged — no
`TransportError` class exists and none is ever produced. -/
theorem endpoint_client_error_taxonomy :
    (∀ (status : Nat) (body : RespBody), 400 ≤ status → status < 600 →
      retrieve_from_endpoint (.response status body) =
        .error (.systemExit status))
    ∧ retrieve_from_endpoint .netFailure = .error .requestException
    ∧ (∀ (o : NetOutcome) (st : Nat),
        retrieve_from_endpoint o ≠ .error (.upstreamHTTPError st))
    ∧ (∀ o : NetOutcome, retrieve_from_endpoint o ≠ .error .transportError) := by
  refine ⟨?_, rfl, ?_, ?_⟩
  · intro status body h1 h2
    rw [retrieve_from_endpoint.eq_def]
    simp [h1, h2]
  · intro o st hcon
    rcases retrieve_errors_limited _ _ hcon with h1 | h1 | ⟨s, h1⟩ <;>
      simp at h1
  · intro o hcon
    rcases retrieve_errors_limited _ _ hcon with h1 | h1 | ⟨s, h1⟩ <;>
      simp at h1

theorem endpoint_client_error_taxonomy_witness :
    retrieve_from_endpoint (.response 503 RespBody.malformed) =
      .error (.systemExit 503) :=
  endpoint_client_error_taxonomy.1 503 RespBody.malformed
    (by decide) (by decide)

/-- Claim C9: formatting an empty ranked result renders only the title line,
the two dash rules and the column-header row — no data rows, and no error —
for both tools' table renderings (the ai-4 title names the resolved date);
and formatting a fixed ranked result twice yields byte-identical text: both
renderings are pure functions of their arguments. -/
theorem formatting_empty_and_deterministic :
    formatTable3 [] =
      "Top Companies by Transaction Volume\n--------------------------------\nCompany Name        Symbol    Total Volume   \n--------------------------------\n"
    ∧ (∀ d : YMD, formatTable4 d [] =
        "Here is the top companies by transaction volume for " ++
          formatYMD d ++ ":\n" ++ tableHeaderBlock)
    ∧ tableHeaderBlock =
        "--------------------------------\nCompany Name        Symbol    Total Volume   \n--------------------------------\n"
    ∧ (∀ entries : List (String × AggEntry),
        formatTable3 entries = formatTable3 entries)
    ∧ (∀ (d : YMD) (entries : List (String × AggEntry)),
        formatTable4 d entries = formatTable4 d entries) := by
  refine ⟨by decide, fun d => ?_, by decide, fun _ => rfl, fun _ _ => rfl⟩
  rw [formatTable4]
  simp [String.join]

/-- Claim C10: inside ai-4's resolver loop a non-2xx HTTP-error response is
never turned into a date advancement: the endpoint client raises
`SystemExit` on `HTTPError`, `SystemExit` is not caught by the loop's
`except Exception` handler (first conjunct), so on an HTTP-error status the
error escapes the loop unchanged from the same candidate date, terminating
the tool (fourth conjunct); only exceptions that ARE `Exception` subclasses
— network failures and JSON-decoding errors (second and third conjuncts) —
make the loop advance the candidate one day and retry (fifth conjunct). -/
theorem system_exit_escapes_resolver_loop :
    (∀ status : Nat,
      PyExc.catchableByExceptException (.systemExit status) = false)
    ∧ PyExc.catchableByExceptException .requestException = true
    ∧ PyExc.catchableByExceptException .jsonDecodeError = true
    ∧ (∀ (transport : Transport) (ts te : String) (top_n : Int)
        (fuel attempt : Nat) (candidate : YMD) (status : Nat)
        (body : RespBody),
        transport (mostTradedUrl ts te top_n) attempt =
          .response status body →
        400 ≤ status → status < 600 →
        get_next_available_date transport ts te top_n (fuel + 1) attempt
          candidate = some (.error (.systemExit status)))
    ∧ (∀ (transport : Transport) (ts te : String) (top_n : Int)
        (fuel attempt : Nat) (candidate : YMD) (e : PyExc),
        retrieve_from_endpoint
            (transport (mostTradedUrl ts te top_n) attempt) = .error e →
        e.catchableByExceptException = true →
        get_next_available_date transport ts te top_n (fuel + 1) attempt
          candidate =
          get_next_available_date transport ts te top_n fuel (attempt + 1)
            (succYMD candidate)) := by
  refine ⟨fun _ => rfl, rfl, rfl, ?_, ?_⟩
  · intro transport ts te top_n fuel attempt candidate status body
      hresp h1 h2
    have hfd : fetch_data transport ts te top_n attempt candidate =
        .error (.systemExit status) := by
      rw [fetch_data, hresp, retrieve_from_endpoint.eq_def]
      simp [h1, h2]
    rw [get_next_available_date, hfd]
    rfl
  · intro transport ts te top_n fuel attempt candidate e he hc
    have hfd : fetch_data transport ts te top_n attempt candidate =
        .error e := he
    rw [get_next_available_date, hfd]
    simp [hc]

theorem system_exit_escapes_resolver_loop_witness :
    get_next_available_date (fun _ _ => NetOutcome.response 503
        (RespBody.payload [])) "2024-01-05" "2024-01-06" 5 3 0
      (YMD.mk 2024 1 5) = some (.error (.systemExit 503))
    ∧ get_next_available_date (fun _ _ => NetOutcome.netFailure)
        "2024-01-05" "2024-01-06" 5 3 0 (YMD.mk 2024 1 5) =
      get_next_available_date (fun _ _ => NetOutcome.netFailure)
        "2024-01-05" "2024-01-06" 5 2 1 (succYMD (YMD.mk 2024 1 5)) :=
  ⟨system_exit_escapes_resolver_loop.2.2.2.1 _ "2024-01-05" "2024-01-06" 5
      2 0 (YMD.mk 2024 1 5) 503 (RespBody.payload []) rfl (by decide)
      (by decide),
    system_exit_escapes_resolver_loop.2.2.2.2 _ "2024-01-05" "2024-01-06" 5
      2 0 (YMD.mk 2024 1 5) PyExc.requestException rfl rfl⟩
